import Mathlib

/-!
Shallow embedding of the tool-use conversation loop of
`notebooks/agents/agent_rag.ipynb`, of the passage loader of
`notebooks/vector_stores/pinecone.ipynb`, and of the routing function of
`notebooks/agents/langchain.ipynb`, together with theorems settling the
specification claims about them.

Network services (the Anthropic chat endpoint, the OpenAI embedding endpoint
and the Pinecone index) are modelled as oracles: the scripted list of model
responses stands for the successive return values of
`client.messages.create`, and a `SearchOracle` stands for the combined
embedding call and index query inside `search_cat_facts`.  Python exceptions
are modelled by the `Except PyError` monad.
-/

/-- Python exceptions that the embedded code can raise. -/
inductive PyError where
  | stopIteration
  | keyError (key : String)
  | indexError
  | exc (msg : String)
  | transport
deriving DecidableEq

/-- Python values handled by the three tool executors: `None`, strings,
lists of strings and (possibly nested) dicts. -/
inductive PyValue where
  | none
  | str (s : String)
  | strList (l : List String)
  | dict (entries : List (String × PyValue))

/-- The `input` mapping of a tool-use block (a Python dict). -/
abbrev ToolInput := List (String × PyValue)

/-- A single quote character, used by Python `repr` of strings. -/
def pyQuote : String := String.mk [Char.ofNat 39]

mutual

/-- Python `repr` of a value, as produced inside `str` of a container. -/
def pyRepr : PyValue → String
  | PyValue.none => "None"
  | PyValue.str s => pyQuote ++ s ++ pyQuote
  | PyValue.strList l =>
      "[" ++ String.intercalate ", " (l.map fun s => pyQuote ++ s ++ pyQuote) ++ "]"
  | PyValue.dict es =>
      "\x7b" ++ String.intercalate ", " (pyReprEntries es) ++ "\x7d"

/-- Python `repr` of the entries of a dict, in insertion order. -/
def pyReprEntries : List (String × PyValue) → List String
  | [] => []
  | e :: es => (pyQuote ++ e.fst ++ pyQuote ++ ": " ++ pyRepr e.snd) :: pyReprEntries es

end

/-- Python `str(tool_result)`, the serialization applied to a tool result
before it is placed in the tool_result content block. -/
def pyStr : PyValue → String
  | PyValue.none => "None"
  | PyValue.str s => s
  | PyValue.strList l =>
      "[" ++ String.intercalate ", " (l.map fun s => pyQuote ++ s ++ pyQuote) ++ "]"
  | PyValue.dict es =>
      "\x7b" ++ String.intercalate ", " (pyReprEntries es) ++ "\x7d"

/-- Content block of a message: a text block, a tool_use block of the model,
or a tool_result block sent back by the loop. -/
inductive ContentBlock where
  | text (t : String)
  | toolUse (id name : String) (input : ToolInput)
  | toolResult (tool_use_id : String) (content : String)

/-- Content of one history entry: either a plain string (the user message)
or a list of content blocks. -/
inductive MsgContent where
  | ofString (s : String)
  | blocks (bs : List ContentBlock)

/-- One entry of the conversation history, as appended by
`ConversationManager.add_message(role, content)`. -/
structure Message where
  role : String
  content : MsgContent

/-- A response of `client.messages.create`. -/
structure ModelResponse where
  stop_reason : String
  content : List ContentBlock

/-- The combined external services used by `search_cat_facts` (the OpenAI
embedding call followed by the Pinecone `index.query`): a query value goes
in, the list of matched metadata texts comes out, or a service exception. -/
abbrev SearchOracle := PyValue → Except PyError (List String)

/-- Embedding of `search_cat_facts(query)`: both network calls and the
extraction of `match['metadata']['text']` are delegated to the oracle. -/
def search_cat_facts (oracle : SearchOracle) (query : PyValue) :
    Except PyError (List String) :=
  oracle query

/-- Embedding of `check_vet_availability()`: the literal availability dict. -/
def check_vet_availability : PyValue :=
  PyValue.dict
    [ ("Monday", PyValue.strList ["10:00-12:00", "12:00-14:00", "14:00-16:00"])
    , ("Tuesday", PyValue.strList ["10:00-12:00", "12:00-14:00", "14:00-16:00"])
    , ("Wednesday", PyValue.strList ["10:00-12:00", "12:00-14:00", "14:00-16:00"])
    , ("Thursday", PyValue.strList ["10:00-12:00", "12:00-14:00", "14:00-16:00"])
    , ("Friday", PyValue.strList ["10:00-12:00", "12:00-14:00", "14:00-16:00"]) ]

/-- Embedding of `book_appointment(day, time)`. -/
def book_appointment (day time : PyValue) : PyValue :=
  PyValue.dict
    [ ("status", PyValue.str "confirmed")
    , ("appointment", PyValue.dict [("day", day), ("time", time)])
    , ("booking_reference", PyValue.str "VET123") ]

/-- Python dict subscription `input[key]`: raises `KeyError` when absent. -/
def dictGet (input : ToolInput) (key : String) : Except PyError PyValue :=
  match input.find? (fun e => e.fst == key) with
  | Option.some e => Except.ok e.snd
  | Option.none => Except.error (PyError.keyError key)

/-- Embedding of `process_tool_call(tool_name, tool_input)`: an if/elif
cascade over the three known tool names with no else branch, so an unknown
name falls through and the function returns `None`. -/
def process_tool_call (oracle : SearchOracle) (tool_name : String)
    (tool_input : ToolInput) : Except PyError PyValue :=
  if tool_name = "search_cat_facts" then do
    let q ← dictGet tool_input "query"
    let facts ← search_cat_facts oracle q
    pure (PyValue.strList facts)
  else if tool_name = "check_vet_availability" then
    pure check_vet_availability
  else if tool_name = "book_appointment" then do
    let day ← dictGet tool_input "day"
    let time ← dictGet tool_input "time"
    pure (book_appointment day time)
  else
    pure PyValue.none

/-- `next(block for block in content if block.type == "tool_use")` followed
by the reads of `.id`, `.name` and `.input`; `Option.none` stands for the
generator being exhausted (Python raises `StopIteration`). -/
def firstToolUse : List ContentBlock → Option (String × String × ToolInput)
  | [] => Option.none
  | ContentBlock.toolUse i n inp :: _ => Option.some (i, n, inp)
  | _ :: rest => firstToolUse rest

/-- `next((block.text for block in content if hasattr(block, "text")), None)`:
only text blocks carry a `text` attribute. -/
def firstText : List ContentBlock → Option String
  | [] => Option.none
  | ContentBlock.text t :: _ => Option.some t
  | _ :: rest => firstText rest

/-- Recognizer for tool_use blocks. -/
def isToolUse : ContentBlock → Bool
  | ContentBlock.toolUse _ _ _ => true
  | _ => false

/-- Recognizer for text blocks. -/
def isText : ContentBlock → Bool
  | ContentBlock.text _ => true
  | _ => false

/-- The user message appended by `add_message("user", user_message)`. -/
def userTextMsg (s : String) : Message :=
  ⟨"user", MsgContent.ofString s⟩

/-- The assistant message appended with the full response content. -/
def assistantMsg (bs : List ContentBlock) : Message :=
  ⟨"assistant", MsgContent.blocks bs⟩

/-- The synthetic user message holding the single tool_result block. -/
def toolResultMsg (tool_use_id content : String) : Message :=
  ⟨"user", MsgContent.blocks [ContentBlock.toolResult tool_use_id content]⟩

/-- One body of the `while` loop up to the tool execution: select the first
tool_use block (`StopIteration` if none) and run `process_tool_call`; on
success return the pair of the block id and the tool result. -/
def roundResult (oracle : SearchOracle) (response : ModelResponse) :
    Except PyError (String × PyValue) :=
  match firstToolUse response.content with
  | Option.none => Except.error PyError.stopIteration
  | Option.some x =>
    match process_tool_call oracle x.snd.fst x.snd.snd with
    | Except.error e => Except.error e
    | Except.ok result => Except.ok (x.fst, result)

/-- The outcome of `chatbot_interaction`: the final text (or `None`), the
conversation history, and — making the loop's observable effects explicit —
the number of `client.messages.create` calls and of tool executions. -/
abbrev RunResult := Option String × List Message × Nat × Nat

/-- The `while response.stop_reason == "tool_use"` loop.  The first argument
is the list of still unscripted model responses; `response` is the response
currently inspected.  When the script runs out at a point where the source
would issue another network call, the run aborts with `transport`. -/
def chatLoop (oracle : SearchOracle) :
    List ModelResponse → ModelResponse → List Message → Nat → Nat →
    Except PyError RunResult
  | [], response, hist, calls, execs =>
    if response.stop_reason = "tool_use" then
      match roundResult oracle response with
      | Except.error e => Except.error e
      | Except.ok _ => Except.error PyError.transport
    else
      Except.ok (firstText response.content, hist, calls, execs)
  | r :: rest, response, hist, calls, execs =>
    if response.stop_reason = "tool_use" then
      match roundResult oracle response with
      | Except.error e => Except.error e
      | Except.ok x =>
        chatLoop oracle rest r
          (hist ++ [assistantMsg response.content,
                    toolResultMsg x.fst (pyStr x.snd)])
          (calls + 1) (execs + 1)
    else
      Except.ok (firstText response.content, hist, calls, execs)

/-- Consume the next scripted model response (one `client.messages.create`
call) and continue with the loop. -/
def runSeq (oracle : SearchOracle) :
    List ModelResponse → List Message → Nat → Nat → Except PyError RunResult
  | [], _, _, _ => Except.error PyError.transport
  | r :: rest, hist, calls, execs => chatLoop oracle rest r hist calls execs

/-- Embedding of `chatbot_interaction(user_message, conversation_manager)`:
append the user message, issue the initial model call, run the loop, and
return the final text with the updated history (plus the call counts). -/
def chatbot_interaction (oracle : SearchOracle)
    (responses : List ModelResponse) (user_message : String)
    (conversation_manager : List Message) : Except PyError RunResult :=
  runSeq oracle responses (conversation_manager ++ [userTextMsg user_message]) 1 0

/-- A model response constituting a completed tool round: it carries stop
reason `tool_use` and its round executes without an exception. -/
def wfRound (oracle : SearchOracle) (r : ModelResponse) : Prop :=
  r.stop_reason = "tool_use" ∧ ∃ x, roundResult oracle r = Except.ok x

/-- The two history entries a completed tool round appends. -/
def roundMsgs (oracle : SearchOracle) (r : ModelResponse) : List Message :=
  match roundResult oracle r with
  | Except.ok x => [assistantMsg r.content, toolResultMsg x.fst (pyStr x.snd)]
  | Except.error _ => []

/-- Python `str.lower()`, applied characterwise. -/
def pyLower (s : String) : String := String.mk (s.data.map Char.toLower)

/-- Python's `pat in s.lower()` test used by `route_question`. -/
def lowerContains (s pat : String) : Bool :=
  decide (pat.data <:+: (pyLower s).data)

/-- Embedding of `route_question(state)` of `langchain.ipynb`.  The state's
message list enters through `messages` (Python `messages[-1]` raises
`IndexError` on an empty list); `reply` is the text of the router model's
response, an input of the surrounding network oracle. -/
def route_question (messages : List String) (reply : String) :
    Except PyError String :=
  match messages.getLast? with
  | Option.none => Except.error PyError.indexError
  | Option.some _ =>
    Except.ok (if lowerContains reply "cat_knowledge" then "cat_knowledge"
               else "general_knowledge")

/-- Python whitespace characters recognized by `strip()` and `split()`. -/
def isPySpace (c : Char) : Bool :=
  c == ' ' || c == '\t' || c == '\n' || c == '\r' || c == '\x0b' || c == '\x0c'

/-- Worker for `readlines`: cut after every newline, keeping the newline,
and emit a final line for trailing characters. -/
def readlinesAux : List Char → List Char → List String
  | [], acc => if acc = [] then [] else [String.mk acc.reverse]
  | c :: rest, acc =>
    if c = '\n' then String.mk (acc.reverse ++ ['\n']) :: readlinesAux rest []
    else readlinesAux rest (c :: acc)

/-- Python `f.readlines()` applied to the file's text. -/
def readlines (s : String) : List String := readlinesAux s.data []

/-- Python `line.strip()`: drop leading and trailing whitespace. -/
def pyStrip (s : String) : String :=
  String.mk (((s.data.dropWhile isPySpace).reverse.dropWhile isPySpace).reverse)

/-- Embedding of `load_passages` of `pinecone.ipynb` applied to the text of
the passage file: `[line.strip() for line in f.readlines()]`. -/
def load_passages (text : String) : List String :=
  (readlines text).map pyStrip

/-- Worker for Python `str.split()` with no separator: whitespace-delimited
tokens, empties discarded. -/
def tokensAux : List Char → List Char → List String
  | [], acc => if acc = [] then [] else [String.mk acc.reverse]
  | c :: rest, acc =>
    if isPySpace c then
      (if acc = [] then tokensAux rest []
       else String.mk acc.reverse :: tokensAux rest [])
    else tokensAux rest (c :: acc)

/-- The whitespace-delimited tokens of a string. -/
def tokensOf (s : String) : List String := tokensAux s.data []

/-- Chunk `b` overlaps the end of chunk `a` by exactly `ov` tokens. -/
def overlapsBy (a b : String) (ov : Nat) : Prop :=
  ov ≤ (tokensOf a).length ∧
  List.drop ((tokensOf a).length - ov) (tokensOf a) = List.take ov (tokensOf b)

/-- The chunker property claimed of the vector-store loader, in the spec's
words: for some token bound `chunk_size_tokens` and positive overlap
`overlap_tokens`, every input is split into chunks of at most
`chunk_size_tokens` tokens, each chunk overlapping the previous one by
`overlap_tokens` tokens. -/
def chunkerClaim : Prop :=
  ∃ chunk_size_tokens overlap_tokens : Nat, 0 < overlap_tokens ∧
    ∀ text : String,
      (∀ c ∈ load_passages text, (tokensOf c).length ≤ chunk_size_tokens) ∧
      List.Chain' (fun a b => overlapsBy a b overlap_tokens) (load_passages text)

/- ### Run lemmas for the conversation loop -/

theorem runSeq_end (oracle : SearchOracle) (tR : ModelResponse)
    (junk : List ModelResponse) (hist : List Message) (calls execs : Nat)
    (ht : ¬ tR.stop_reason = "tool_use") :
    runSeq oracle (tR :: junk) hist calls execs
      = Except.ok (firstText tR.content, hist, calls, execs) := by
  cases junk <;> simp [runSeq, chatLoop, ht]

theorem runSeq_step (oracle : SearchOracle) (r : ModelResponse)
    (rest : List ModelResponse) (hist : List Message) (calls execs : Nat)
    (x : String × PyValue) (h1 : r.stop_reason = "tool_use")
    (h2 : roundResult oracle r = Except.ok x) :
    runSeq oracle (r :: rest) hist calls execs
      = runSeq oracle rest
          (hist ++ [assistantMsg r.content, toolResultMsg x.fst (pyStr x.snd)])
          (calls + 1) (execs + 1) := by
  cases rest <;> simp [runSeq, chatLoop, h1, h2]

theorem runSeq_err (oracle : SearchOracle) (r : ModelResponse)
    (rest : List ModelResponse) (hist : List Message) (calls execs : Nat)
    (err : PyError) (h1 : r.stop_reason = "tool_use")
    (h2 : roundResult oracle r = Except.error err) :
    runSeq oracle (r :: rest) hist calls execs = Except.error err := by
  cases rest <;> simp [runSeq, chatLoop, h1, h2]

theorem roundMsgs_eq (oracle : SearchOracle) (r : ModelResponse)
    (x : String × PyValue) (h : roundResult oracle r = Except.ok x) :
    roundMsgs oracle r
      = [assistantMsg r.content, toolResultMsg x.fst (pyStr x.snd)] := by
  simp [roundMsgs, h]

theorem runSeq_spec (oracle : SearchOracle) (rounds : List ModelResponse)
    (tR : ModelResponse) (junk : List ModelResponse) :
    ∀ (hist : List Message) (calls execs : Nat),
    (∀ r ∈ rounds, wfRound oracle r) → ¬ tR.stop_reason = "tool_use" →
    runSeq oracle (rounds ++ tR :: junk) hist calls execs
      = Except.ok (firstText tR.content,
          hist ++ (rounds.map (roundMsgs oracle)).flatten,
          calls + rounds.length, execs + rounds.length) := by
  induction rounds with
  | nil =>
    intro hist calls execs _ ht
    simpa using runSeq_end oracle tR junk hist calls execs ht
  | cons r rs ih =>
    intro hist calls execs hw ht
    obtain ⟨h1, x, h2⟩ := hw r (List.mem_cons_self r rs)
    rw [List.cons_append,
        runSeq_step oracle r (rs ++ tR :: junk) hist calls execs x h1 h2,
        ih _ _ _ (fun q hq => hw q (List.mem_cons_of_mem r hq)) ht]
    simp only [roundMsgs_eq oracle r x h2, List.map_cons, List.flatten_cons,
      List.append_assoc, List.length_cons]
    have hc : calls + 1 + rs.length = calls + (rs.length + 1) := by omega
    have he : execs + 1 + rs.length = execs + (rs.length + 1) := by omega
    rw [hc, he]

theorem chatLoop_hist_prefix (oracle : SearchOracle) :
    ∀ (rest : List ModelResponse) (r : ModelResponse) (hist : List Message)
      (calls execs : Nat) (ans : Option String) (h : List Message)
      (calls2 execs2 : Nat),
    chatLoop oracle rest r hist calls execs
      = Except.ok (ans, h, calls2, execs2) → ∃ d, h = hist ++ d := by
  intro rest
  induction rest with
  | nil =>
    intro r hist calls execs ans h calls2 execs2 hrun
    by_cases h1 : r.stop_reason = "tool_use"
    · rcases hx : roundResult oracle r with e | x <;>
        simp [chatLoop, h1, hx] at hrun
    · simp [chatLoop, h1] at hrun
      exact ⟨[], by simp [hrun.2.1]⟩
  | cons r2 rest2 ih =>
    intro r hist calls execs ans h calls2 execs2 hrun
    by_cases h1 : r.stop_reason = "tool_use"
    · rcases hx : roundResult oracle r with e | x
      · simp [chatLoop, h1, hx] at hrun
      · simp only [chatLoop, h1, hx, if_pos] at hrun
        obtain ⟨d, hd⟩ := ih r2 _ _ _ _ _ _ _ hrun
        exact ⟨_, by rw [hd, List.append_assoc]⟩
    · simp [chatLoop, h1] at hrun
      exact ⟨[], by simp [hrun.2.1]⟩

theorem firstToolUse_of_first (pre : List ContentBlock) (i n : String)
    (inp : ToolInput) (rest : List ContentBlock)
    (hpre : ∀ b ∈ pre, isToolUse b = false) :
    firstToolUse (pre ++ ContentBlock.toolUse i n inp :: rest)
      = Option.some (i, n, inp) := by
  induction pre with
  | nil => rfl
  | cons b bs ih =>
    cases b with
    | text t =>
      simpa [firstToolUse] using ih fun q hq => hpre q (List.mem_cons_of_mem _ hq)
    | toolUse i2 n2 inp2 =>
      exact absurd (hpre _ (List.mem_cons_self _ _)) (by simp [isToolUse])
    | toolResult tid c =>
      simpa [firstToolUse] using ih fun q hq => hpre q (List.mem_cons_of_mem _ hq)

theorem firstToolUse_eq_none (l : List ContentBlock)
    (h : ∀ b ∈ l, isToolUse b = false) : firstToolUse l = Option.none := by
  induction l with
  | nil => rfl
  | cons b bs ih =>
    cases b with
    | text t =>
      simpa [firstToolUse] using ih fun q hq => h q (List.mem_cons_of_mem _ hq)
    | toolUse i2 n2 inp2 =>
      exact absurd (h _ (List.mem_cons_self _ _)) (by simp [isToolUse])
    | toolResult tid c =>
      simpa [firstToolUse] using ih fun q hq => h q (List.mem_cons_of_mem _ hq)

theorem firstText_of_first (pre : List ContentBlock) (t : String)
    (rest : List ContentBlock) (hpre : ∀ b ∈ pre, isText b = false) :
    firstText (pre ++ ContentBlock.text t :: rest) = Option.some t := by
  induction pre with
  | nil => rfl
  | cons b bs ih =>
    cases b with
    | text t2 =>
      exact absurd (hpre _ (List.mem_cons_self _ _)) (by simp [isText])
    | toolUse i2 n2 inp2 =>
      simpa [firstText] using ih fun q hq => hpre q (List.mem_cons_of_mem _ hq)
    | toolResult tid c =>
      simpa [firstText] using ih fun q hq => hpre q (List.mem_cons_of_mem _ hq)

theorem firstText_eq_none (l : List ContentBlock)
    (h : ∀ b ∈ l, isText b = false) : firstText l = Option.none := by
  induction l with
  | nil => rfl
  | cons b bs ih =>
    cases b with
    | text t2 =>
      exact absurd (h _ (List.mem_cons_self _ _)) (by simp [isText])
    | toolUse i2 n2 inp2 =>
      simpa [firstText] using ih fun q hq => h q (List.mem_cons_of_mem _ hq)
    | toolResult tid c =>
      simpa [firstText] using ih fun q hq => h q (List.mem_cons_of_mem _ hq)

theorem roundMsgs_flatten_length (oracle : SearchOracle)
    (rounds : List ModelResponse)
    (hw : ∀ r ∈ rounds, ∃ x, roundResult oracle r = Except.ok x) :
    ((rounds.map (roundMsgs oracle)).flatten).length = 2 * rounds.length := by
  induction rounds with
  | nil => simp
  | cons r rs ih =>
    obtain ⟨x, hx⟩ := hw r (List.mem_cons_self _ _)
    simp [roundMsgs_eq oracle r x hx,
      ih fun q hq => hw q (List.mem_cons_of_mem _ hq)]
    omega

/- ### Concrete fixtures used by witnesses and counterexamples -/

/-- A search service that answers every query with one fixed fact. -/
def oracleOk : SearchOracle := fun _ => Except.ok ["Cats sleep a lot"]

/-- A search service whose network call raises. -/
def oracleBoom : SearchOracle := fun _ => Except.error (PyError.exc "APIConnectionError")

/-- A response requesting `search_cat_facts` with a well-formed input. -/
def respToolSearch : ModelResponse :=
  ⟨"tool_use", [ContentBlock.text "Let me search",
    ContentBlock.toolUse "toolu_01" "search_cat_facts"
      [("query", PyValue.str "cat sleep")]]⟩

/-- A response requesting `search_cat_facts` without the required `query`
key, so the executor raises `KeyError`. -/
def respToolBadInput : ModelResponse :=
  ⟨"tool_use", [ContentBlock.toolUse "toolu_03" "search_cat_facts" []]⟩

/-- A response requesting a tool name absent from the registry. -/
def respToolFoo : ModelResponse :=
  ⟨"tool_use", [ContentBlock.toolUse "toolu_02" "foo_tool" []]⟩

/-- A malformed response: stop reason `tool_use` but no tool_use block. -/
def respToolNoBlock : ModelResponse :=
  ⟨"tool_use", [ContentBlock.text "hmm"]⟩

/-- A terminal response with a text block. -/
def respEnd : ModelResponse := ⟨"end_turn", [ContentBlock.text "All done"]⟩

/-- A terminal response with no text block at all. -/
def respEndNoText : ModelResponse := ⟨"end_turn", []⟩

/- ### Claim C1 -/

/-- C1 counterexample: with a scripted follow-up response available, a tool
executor whose service call raises makes `chatbot_interaction` evaluate to
that very exception — it is not caught, no error-valued tool result is
produced, and the loop never reaches its terminal state. -/
theorem C1_counterexample :
    chatbot_interaction oracleBoom [respToolSearch, respEnd] "My cat is sick" []
      = Except.error (PyError.exc "APIConnectionError") := rfl

/-- C1 (amended): when the response selects a tool whose execution raises an
exception, the exception propagates uncaught out of `chatbot_interaction`
(there is no try/except around `process_tool_call` in the source); the
conversation does not continue. -/
theorem C1_exception_propagates (oracle : SearchOracle) (r : ModelResponse)
    (rest : List ModelResponse) (u : String) (cm : List Message)
    (i n : String) (inp : ToolInput) (err : PyError)
    (h1 : r.stop_reason = "tool_use")
    (h2 : firstToolUse r.content = Option.some (i, n, inp))
    (h3 : process_tool_call oracle n inp = Except.error err) :
    chatbot_interaction oracle (r :: rest) u cm = Except.error err := by
  have hr : roundResult oracle r = Except.error err := by
    simp [roundResult, h2, h3]
  exact runSeq_err oracle r rest (cm ++ [userTextMsg u]) 1 0 err h1 hr

/-- C1 witness: a missing required input key makes the executor raise
`KeyError`, which escapes the loop. -/
theorem C1_witness :
    chatbot_interaction oracleBoom [respToolBadInput] "hi" []
      = Except.error (PyError.keyError "query") :=
  C1_exception_propagates oracleBoom respToolBadInput [] "hi" []
    "toolu_03" "search_cat_facts" [] (PyError.keyError "query") rfl rfl rfl

/- ### Claim C2 -/

/-- C2 counterexample: on an unknown tool name the loop does continue, but
the tool result content appended is the string `None` — the stringification
of the `None` that falls out of the if/elif cascade — which signals no
unknown-tool error: it contains neither an error marker nor the tool name. -/
theorem C2_counterexample :
    chatbot_interaction oracleOk [respToolFoo, respEnd] "hi" []
      = Except.ok (Option.some "All done",
          [userTextMsg "hi", assistantMsg respToolFoo.content,
           toolResultMsg "toolu_02" "None"], 2, 1)
    ∧ lowerContains "None" "error" = false
    ∧ lowerContains "None" "unknown" = false
    ∧ lowerContains "None" "foo_tool" = false :=
  ⟨rfl, by decide, by decide, by decide⟩

/-- C2 (amended): a request for a tool name outside the registry never
raises: `process_tool_call` falls through its if/elif cascade and returns
`None`, the loop appends a ToolResult block whose content is the string
`None` (no unknown-tool error value is synthesized), and the conversation
continues to the terminal response. -/
theorem C2_unknown_tool_returns_none (oracle : SearchOracle)
    (r tR : ModelResponse) (junk : List ModelResponse) (u : String)
    (cm : List Message) (i n : String) (inp : ToolInput)
    (h1 : r.stop_reason = "tool_use")
    (h2 : firstToolUse r.content = Option.some (i, n, inp))
    (hn1 : n ≠ "search_cat_facts") (hn2 : n ≠ "check_vet_availability")
    (hn3 : n ≠ "book_appointment") (ht : ¬ tR.stop_reason = "tool_use") :
    chatbot_interaction oracle (r :: tR :: junk) u cm
      = Except.ok (firstText tR.content,
          cm ++ [userTextMsg u, assistantMsg r.content, toolResultMsg i "None"],
          2, 1) := by
  have hp : process_tool_call oracle n inp = Except.ok PyValue.none := by
    simp only [process_tool_call, hn1, hn2, hn3, if_false, ite_false]
    rfl
  have hr : roundResult oracle r = Except.ok (i, PyValue.none) := by
    simp [roundResult, h2, hp]
  show runSeq oracle (r :: tR :: junk) (cm ++ [userTextMsg u]) 1 0 = _
  rw [runSeq_step oracle r (tR :: junk) (cm ++ [userTextMsg u]) 1 0
        (i, PyValue.none) h1 hr,
      runSeq_end oracle tR junk _ 2 1 ht]
  simp [pyStr, List.append_assoc]

/-- C2 witness: concrete unknown-tool round reaching the terminal state. -/
theorem C2_witness :
    chatbot_interaction oracleOk [respToolFoo, respEnd] "Can you foo" []
      = Except.ok (firstText respEnd.content,
          [] ++ [userTextMsg "Can you foo", assistantMsg respToolFoo.content,
                 toolResultMsg "toolu_02" "None"], 2, 1) :=
  C2_unknown_tool_returns_none oracleOk respToolFoo respEnd [] "Can you foo" []
    "toolu_02" "foo_tool" [] rfl rfl (by decide) (by decide) (by decide)
    (by decide)

/- ### Claim C3 -/

/-- C3: with the model scripted to request a tool in each of `rounds.length`
well-formed rounds and then stop, `chatbot_interaction` performs exactly
`rounds.length + 1` model calls and `rounds.length` tool executions, returns
the first text of the terminal response (in particular, with zero rounds it
makes exactly one model call and returns that response's text unchanged),
and the history grows by exactly one user entry plus two entries per round. -/
theorem C3_counts_and_growth (oracle : SearchOracle)
    (rounds : List ModelResponse) (tR : ModelResponse)
    (junk : List ModelResponse) (u : String) (cm : List Message)
    (hw : ∀ r ∈ rounds, wfRound oracle r) (ht : ¬ tR.stop_reason = "tool_use") :
    chatbot_interaction oracle (rounds ++ tR :: junk) u cm
      = Except.ok (firstText tR.content,
          cm ++ userTextMsg u :: (rounds.map (roundMsgs oracle)).flatten,
          rounds.length + 1, rounds.length)
    ∧ (cm ++ userTextMsg u :: (rounds.map (roundMsgs oracle)).flatten).length
        = cm.length + 1 + 2 * rounds.length := by
  constructor
  · show runSeq oracle (rounds ++ tR :: junk) (cm ++ [userTextMsg u]) 1 0 = _
    rw [runSeq_spec oracle rounds tR junk (cm ++ [userTextMsg u]) 1 0 hw ht]
    simp [List.append_assoc, Nat.add_comm]
  · have hlen := roundMsgs_flatten_length oracle rounds fun r hr => (hw r hr).2
    simp only [List.length_append, List.length_cons, hlen]
    omega

/-- C3 witness: one well-formed search round followed by a terminal
response: two model calls, one tool execution, history of three entries. -/
theorem C3_witness :
    chatbot_interaction oracleOk ([respToolSearch] ++ respEnd :: []) "hi" []
      = Except.ok (firstText respEnd.content,
          [] ++ userTextMsg "hi" :: ([respToolSearch].map (roundMsgs oracleOk)).flatten,
          [respToolSearch].length + 1, [respToolSearch].length)
    ∧ ([] ++ userTextMsg "hi" :: ([respToolSearch].map (roundMsgs oracleOk)).flatten).length
        = ([] : List Message).length + 1 + 2 * [respToolSearch].length :=
  C3_counts_and_growth oracleOk [respToolSearch] respEnd [] "hi" []
    (fun r hr => by
      simp only [List.mem_singleton] at hr
      subst hr
      exact ⟨rfl, ⟨("toolu_01", PyValue.strList ["Cats sleep a lot"]), rfl⟩⟩)
    (by decide)

/- ### Claim C4 -/

/-- C4: when the scripted rounds complete and the terminal response has stop
reason other than `tool_use`, the final answer is `firstText` of the
terminal content; `firstText` returns the text of the first text block when
one exists, and `Option.none` — not an exception — when the terminal content
has no text block at all. -/
theorem C4_final_text_extraction (oracle : SearchOracle)
    (rounds : List ModelResponse) (tR : ModelResponse)
    (junk : List ModelResponse) (u : String) (cm : List Message)
    (hw : ∀ r ∈ rounds, wfRound oracle r) (ht : ¬ tR.stop_reason = "tool_use") :
    (∃ h, chatbot_interaction oracle (rounds ++ tR :: junk) u cm
        = Except.ok (firstText tR.content, h, rounds.length + 1, rounds.length))
    ∧ (∀ pre t suf, tR.content = pre ++ ContentBlock.text t :: suf →
        (∀ b ∈ pre, isText b = false) → firstText tR.content = Option.some t)
    ∧ ((∀ b ∈ tR.content, isText b = false) →
        firstText tR.content = Option.none) := by
  refine ⟨⟨cm ++ userTextMsg u :: (rounds.map (roundMsgs oracle)).flatten, ?_⟩,
    ?_, ?_⟩
  · show runSeq oracle (rounds ++ tR :: junk) (cm ++ [userTextMsg u]) 1 0 = _
    rw [runSeq_spec oracle rounds tR junk (cm ++ [userTextMsg u]) 1 0 hw ht]
    simp [List.append_assoc, Nat.add_comm]
  · intro pre t suf hc hpre
    rw [hc]
    exact firstText_of_first pre t suf hpre
  · intro hnone
    exact firstText_eq_none tR.content hnone

/-- C4 witness: a terminal response with no text block yields `Option.none`
as final answer, and one with a leading text block yields its text. -/
theorem C4_witness :
    (∃ h, chatbot_interaction oracleOk ([] ++ respEndNoText :: []) "q" []
        = Except.ok (firstText respEndNoText.content, h,
            ([] : List ModelResponse).length + 1,
            ([] : List ModelResponse).length))
    ∧ firstText respEnd.content = Option.some "All done"
    ∧ firstText respEndNoText.content = Option.none :=
  ⟨(C4_final_text_extraction oracleOk [] respEndNoText [] "q" []
      (fun r hr => absurd hr (List.not_mem_nil r)) (by decide)).1,
   (C4_final_text_extraction oracleOk [] respEnd [] "q" []
      (fun r hr => absurd hr (List.not_mem_nil r)) (by decide)).2.1
     [] "All done" [] rfl (by decide),
   (C4_final_text_extraction oracleOk [] respEndNoText [] "q" []
      (fun r hr => absurd hr (List.not_mem_nil r)) (by decide)).2.2
     (by decide)⟩

/- ### Claim C5 -/

/-- C5: in every completed run the history extension consists of the round
messages, and the ToolResult block generated for a round carries exactly
the `id` of the ToolUse block selected for execution in that round,
whatever the tool name and input. -/
theorem C5_tool_use_id_roundtrip (oracle : SearchOracle)
    (rounds : List ModelResponse) (tR : ModelResponse)
    (junk : List ModelResponse) (u : String) (cm : List Message)
    (hw : ∀ r ∈ rounds, wfRound oracle r) (ht : ¬ tR.stop_reason = "tool_use") :
    chatbot_interaction oracle (rounds ++ tR :: junk) u cm
      = Except.ok (firstText tR.content,
          cm ++ userTextMsg u :: (rounds.map (roundMsgs oracle)).flatten,
          rounds.length + 1, rounds.length)
    ∧ ∀ (r : ModelResponse) (i n : String) (inp : ToolInput) (res : PyValue),
        firstToolUse r.content = Option.some (i, n, inp) →
        process_tool_call oracle n inp = Except.ok res →
        roundMsgs oracle r
          = [assistantMsg r.content, toolResultMsg i (pyStr res)] := by
  constructor
  · show runSeq oracle (rounds ++ tR :: junk) (cm ++ [userTextMsg u]) 1 0 = _
    rw [runSeq_spec oracle rounds tR junk (cm ++ [userTextMsg u]) 1 0 hw ht]
    simp [List.append_assoc, Nat.add_comm]
  · intro r i n inp res hf hp
    have hr : roundResult oracle r = Except.ok (i, res) := by
      simp [roundResult, hf, hp]
    exact roundMsgs_eq oracle r (i, res) hr

/-- C5 witness: the round triggered by tool_use block `toolu_01` appends a
tool_result block whose `tool_use_id` is `toolu_01`. -/
theorem C5_witness :
    chatbot_interaction oracleOk ([respToolSearch] ++ respEnd :: []) "hey" []
      = Except.ok (firstText respEnd.content,
          [] ++ userTextMsg "hey" :: ([respToolSearch].map (roundMsgs oracleOk)).flatten,
          [respToolSearch].length + 1, [respToolSearch].length)
    ∧ roundMsgs oracleOk respToolSearch
        = [assistantMsg respToolSearch.content,
           toolResultMsg "toolu_01" (pyStr (PyValue.strList ["Cats sleep a lot"]))] :=
  ⟨(C5_tool_use_id_roundtrip oracleOk [respToolSearch] respEnd [] "hey" []
      (fun r hr => by
        simp only [List.mem_singleton] at hr
        subst hr
        exact ⟨rfl, ⟨("toolu_01", PyValue.strList ["Cats sleep a lot"]), rfl⟩⟩)
      (by decide)).1,
   (C5_tool_use_id_roundtrip oracleOk [respToolSearch] respEnd [] "hey" []
      (fun r hr => by
        simp only [List.mem_singleton] at hr
        subst hr
        exact ⟨rfl, ⟨("toolu_01", PyValue.strList ["Cats sleep a lot"]), rfl⟩⟩)
      (by decide)).2
     respToolSearch "toolu_01" "search_cat_facts" [("query", PyValue.str "cat sleep")]
     (PyValue.strList ["Cats sleep a lot"]) rfl rfl⟩

/- ### Claim C6 -/

/-- C6: `firstToolUse` selects the first tool_use block of the content even
when several are present, and a serviced round appends exactly two messages
in order: an assistant message carrying the full response content, then a
user message whose content is the single ToolResult block with the selected
block's id and the serialized tool result. -/
theorem C6_first_block_and_two_appends (oracle : SearchOracle)
    (r tR : ModelResponse) (junk : List ModelResponse) (u : String)
    (cm : List Message) (i n : String) (inp : ToolInput) (res : PyValue)
    (h1 : r.stop_reason = "tool_use")
    (h2 : firstToolUse r.content = Option.some (i, n, inp))
    (h3 : process_tool_call oracle n inp = Except.ok res)
    (ht : ¬ tR.stop_reason = "tool_use") :
    chatbot_interaction oracle (r :: tR :: junk) u cm
      = Except.ok (firstText tR.content,
          cm ++ [userTextMsg u, assistantMsg r.content,
                 toolResultMsg i (pyStr res)], 2, 1)
    ∧ ∀ (pre : List ContentBlock) (i2 n2 : String) (inp2 : ToolInput)
        (rest2 : List ContentBlock), (∀ b ∈ pre, isToolUse b = false) →
        firstToolUse (pre ++ ContentBlock.toolUse i2 n2 inp2 :: rest2)
          = Option.some (i2, n2, inp2) := by
  constructor
  · have hr : roundResult oracle r = Except.ok (i, res) := by
      simp [roundResult, h2, h3]
    show runSeq oracle (r :: tR :: junk) (cm ++ [userTextMsg u]) 1 0 = _
    rw [runSeq_step oracle r (tR :: junk) (cm ++ [userTextMsg u]) 1 0
          (i, res) h1 hr,
        runSeq_end oracle tR junk _ 2 1 ht]
    simp [List.append_assoc]
  · intro pre i2 n2 inp2 rest2 hpre
    exact firstToolUse_of_first pre i2 n2 inp2 rest2 hpre

/-- C6 witness: a round with two tool_use blocks services only the first
one (`toolu_01`), and exactly the two messages are appended. -/
theorem C6_witness :
    chatbot_interaction oracleOk [respToolSearch, respEnd] "yo" []
      = Except.ok (firstText respEnd.content,
          [] ++ [userTextMsg "yo", assistantMsg respToolSearch.content,
                 toolResultMsg "toolu_01"
                   (pyStr (PyValue.strList ["Cats sleep a lot"]))], 2, 1)
    ∧ firstToolUse
        ([ContentBlock.text "Let me search"]
          ++ ContentBlock.toolUse "toolu_01" "search_cat_facts"
               [("query", PyValue.str "cat sleep")]
            :: [ContentBlock.toolUse "toolu_99" "book_appointment" []])
        = Option.some ("toolu_01", "search_cat_facts",
            [("query", PyValue.str "cat sleep")]) :=
  ⟨(C6_first_block_and_two_appends oracleOk respToolSearch respEnd [] "yo" []
      "toolu_01" "search_cat_facts" [("query", PyValue.str "cat sleep")]
      (PyValue.strList ["Cats sleep a lot"]) rfl rfl rfl (by decide)).1,
   (C6_first_block_and_two_appends oracleOk respToolSearch respEnd [] "yo" []
      "toolu_01" "search_cat_facts" [("query", PyValue.str "cat sleep")]
      (PyValue.strList ["Cats sleep a lot"]) rfl rfl rfl (by decide)).2
     [ContentBlock.text "Let me search"] "toolu_01" "search_cat_facts"
     [("query", PyValue.str "cat sleep")]
     [ContentBlock.toolUse "toolu_99" "book_appointment" []] (by decide)⟩

/- ### Claim C7 -/

/-- C7: the history is mutated only by appending: every successful run
returns the passed-in history unchanged as a prefix, extended by the user
entry and the exchange messages; a completed run returns the full transcript
of the exchange in insertion order. -/
theorem C7_history_append_only :
    (∀ (oracle : SearchOracle) (responses : List ModelResponse) (u : String)
       (cm : List Message) (ans : Option String) (h : List Message)
       (calls execs : Nat),
       chatbot_interaction oracle responses u cm
         = Except.ok (ans, h, calls, execs) →
       ∃ d, h = cm ++ userTextMsg u :: d)
    ∧ (∀ (oracle : SearchOracle) (rounds : List ModelResponse)
         (tR : ModelResponse) (junk : List ModelResponse) (u : String)
         (cm : List Message),
         (∀ r ∈ rounds, wfRound oracle r) → ¬ tR.stop_reason = "tool_use" →
         chatbot_interaction oracle (rounds ++ tR :: junk) u cm
           = Except.ok (firstText tR.content,
               cm ++ userTextMsg u :: (rounds.map (roundMsgs oracle)).flatten,
               rounds.length + 1, rounds.length)) := by
  constructor
  · intro oracle responses u cm ans h calls execs hrun
    cases responses with
    | nil => simp [chatbot_interaction, runSeq] at hrun
    | cons r rest =>
      obtain ⟨d, hd⟩ := chatLoop_hist_prefix oracle rest r
        (cm ++ [userTextMsg u]) 1 0 ans h calls execs hrun
      refine ⟨d, ?_⟩
      rw [hd, List.append_assoc]
      simp
  · intro oracle rounds tR junk u cm hw ht
    show runSeq oracle (rounds ++ tR :: junk) (cm ++ [userTextMsg u]) 1 0 = _
    rw [runSeq_spec oracle rounds tR junk (cm ++ [userTextMsg u]) 1 0 hw ht]
    simp [List.append_assoc, Nat.add_comm]

/-- C7 witness: applying the prefix property to a concrete run with a
non-empty starting history. -/
theorem C7_witness :
    ∃ d, [userTextMsg "earlier", userTextMsg "hi",
          assistantMsg respToolSearch.content,
          toolResultMsg "toolu_01" (pyStr (PyValue.strList ["Cats sleep a lot"]))]
      = [userTextMsg "earlier"] ++ userTextMsg "hi" :: d :=
  C7_history_append_only.1 oracleOk [respToolSearch, respEnd] "hi"
    [userTextMsg "earlier"]
    (Option.some "All done")
    [userTextMsg "earlier", userTextMsg "hi",
     assistantMsg respToolSearch.content,
     toolResultMsg "toolu_01" (pyStr (PyValue.strList ["Cats sleep a lot"]))]
    2 1 rfl

/- ### Claim C9 -/

/-- C9: a response whose stop reason is `tool_use` but whose content holds
no tool_use block makes the loop raise `StopIteration` (the bare `next`
over an exhausted generator): the run neither returns a result nor
continues. -/
theorem C9_missing_tool_use_raises (oracle : SearchOracle)
    (r : ModelResponse) (rest : List ModelResponse) (u : String)
    (cm : List Message) (h1 : r.stop_reason = "tool_use")
    (h2 : ∀ b ∈ r.content, isToolUse b = false) :
    chatbot_interaction oracle (r :: rest) u cm
      = Except.error PyError.stopIteration := by
  have hr : roundResult oracle r = Except.error PyError.stopIteration := by
    simp [roundResult, firstToolUse_eq_none r.content h2]
  exact runSeq_err oracle r rest (cm ++ [userTextMsg u]) 1 0
    PyError.stopIteration h1 hr

/-- C9 witness: a concrete malformed tool-request response aborts the run
with `StopIteration` even though a terminal response was scripted next. -/
theorem C9_witness :
    chatbot_interaction oracleOk [respToolNoBlock, respEnd] "hi" []
      = Except.error PyError.stopIteration :=
  C9_missing_tool_use_raises oracleOk respToolNoBlock [respEnd] "hi" []
    rfl (by decide)

/- ### Claim C10 -/

/-- C10: given a non-empty message list, `route_question` never raises and
returns exactly one of the two route strings; it returns `cat_knowledge`
precisely when the router reply contains the substring `cat_knowledge`
case-insensitively (i.e. inside the lowercased reply), and defaults to
`general_knowledge` otherwise. -/
theorem C10_route_question_total (messages : List String) (reply : String)
    (h : messages ≠ []) :
    (route_question messages reply = Except.ok "cat_knowledge" ∨
     route_question messages reply = Except.ok "general_knowledge")
    ∧ (route_question messages reply = Except.ok "cat_knowledge" ↔
        ∃ pre suf : String, pyLower reply = pre ++ "cat_knowledge" ++ suf) := by
  obtain ⟨x, hx⟩ : ∃ x, messages.getLast? = Option.some x := by
    cases hlast : messages.getLast? with
    | none => exact absurd (List.getLast?_eq_none_iff.mp hlast) h
    | some x => exact ⟨x, rfl⟩
  have hroute : route_question messages reply
      = Except.ok (if lowerContains reply "cat_knowledge" then "cat_knowledge"
                   else "general_knowledge") := by
    simp [route_question, hx]
  by_cases hc : lowerContains reply "cat_knowledge" = true
  · rw [hroute, if_pos hc]
    refine ⟨Or.inl rfl, ?_, fun _ => rfl⟩
    intro _
    obtain ⟨s, t, hst⟩ := of_decide_eq_true hc
    refine ⟨String.mk s, String.mk t, ?_⟩
    apply String.ext
    simpa [String.data_append] using hst.symm
  · rw [hroute, if_neg hc]
    refine ⟨Or.inr rfl, ?_, ?_⟩
    · intro hk
      exact absurd (Except.ok.inj hk) (by decide)
    · rintro ⟨pre, suf, hps⟩
      apply absurd _ hc
      apply decide_eq_true
      refine ⟨pre.data, suf.data, ?_⟩
      have h2 := congrArg String.data hps
      simp only [String.data_append] at h2
      exact h2.symm

/-- C10 witness: a reply mentioning the route in mixed case routes to the
cat knowledge base. -/
theorem C10_witness :
    (route_question ["Is my cat ok"] "Route: CAT_knowledge."
        = Except.ok "cat_knowledge" ∨
     route_question ["Is my cat ok"] "Route: CAT_knowledge."
        = Except.ok "general_knowledge")
    ∧ (route_question ["Is my cat ok"] "Route: CAT_knowledge."
        = Except.ok "cat_knowledge" ↔
        ∃ pre suf : String,
          pyLower "Route: CAT_knowledge." = pre ++ "cat_knowledge" ++ suf) :=
  C10_route_question_total ["Is my cat ok"] "Route: CAT_knowledge." (by decide)

/- ### Claim C8 -/

theorem pyStrip_data_subset (s : String) (c : Char)
    (hc : c ∈ (pyStrip s).data) : c ∈ s.data := by
  have h1 : (pyStrip s).data
      = ((s.data.dropWhile isPySpace).reverse.dropWhile isPySpace).reverse :=
    rfl
  rw [h1, List.mem_reverse] at hc
  have h2 : c ∈ (s.data.dropWhile isPySpace).reverse :=
    (List.dropWhile_sublist isPySpace).subset hc
  rw [List.mem_reverse] at h2
  exact (List.dropWhile_sublist isPySpace).subset h2

theorem pyStrip_no_newline (s : String) (l : List Char) (hl : '\n' ∉ l)
    (hs : s.data = l ∨ s.data = l ++ ['\n']) : '\n' ∉ (pyStrip s).data := by
  cases hs with
  | inl h =>
    intro hmem
    exact hl (h ▸ pyStrip_data_subset s '\n' hmem)
  | inr h =>
    intro hmem
    have hdata : (pyStrip s).data
        = ((s.data.dropWhile isPySpace).reverse.dropWhile isPySpace).reverse :=
      rfl
    rw [hdata, List.mem_reverse] at hmem
    have hsuf : s.data.dropWhile isPySpace <:+ l ++ ['\n'] := by
      rw [← h]
      exact List.dropWhile_suffix isPySpace
    rcases List.eq_nil_or_concat (s.data.dropWhile isPySpace) with hnil | hcat
    · rw [hnil] at hmem
      simp at hmem
    · obtain ⟨A, a, hA⟩ := hcat
      obtain ⟨p, hp⟩ := hsuf
      rw [hA, List.concat_eq_append, ← List.append_assoc] at hp
      obtain ⟨hpl, ha⟩ := List.append_inj' hp rfl
      have ha2 : a = '\n' := by
        have := congrArg (fun q => q.headD 'x') ha
        simpa using this
      have hAnl : '\n' ∉ A := by
        intro hxa
        exact hl (hpl ▸ List.mem_append_right p hxa)
      rw [hA, List.concat_eq_append, List.reverse_concat, ha2] at hmem
      rw [List.dropWhile_cons] at hmem
      have hsp : isPySpace '\n' = true := by decide
      rw [if_pos hsp] at hmem
      have h5 : '\n' ∈ A.reverse :=
        (List.dropWhile_sublist isPySpace).subset hmem
      rw [List.mem_reverse] at h5
      exact hAnl h5

theorem readlinesAux_shape :
    ∀ (cs acc : List Char), '\n' ∉ acc →
    ∀ s ∈ readlinesAux cs acc,
      ∃ l, '\n' ∉ l ∧ (s.data = l ∨ s.data = l ++ ['\n']) := by
  intro cs
  induction cs with
  | nil =>
    intro acc hacc s hs
    by_cases hne : acc = []
    · simp [readlinesAux, hne] at hs
    · simp only [readlinesAux] at hs
      rw [if_neg hne, List.mem_singleton] at hs
      subst hs
      refine ⟨acc.reverse, ?_, Or.inl rfl⟩
      rw [List.mem_reverse]
      exact hacc
  | cons c rest ih =>
    intro acc hacc s hs
    by_cases hc : c = '\n'
    · rw [readlinesAux, if_pos hc] at hs
      rcases List.mem_cons.mp hs with hs1 | hs2
      · subst hs1
        refine ⟨acc.reverse, ?_, Or.inr rfl⟩
        rw [List.mem_reverse]
        exact hacc
      · exact ih [] (List.not_mem_nil '\n') s hs2
    · rw [readlinesAux, if_neg hc] at hs
      refine ih (c :: acc) ?_ s hs
      intro hx
      rcases List.mem_cons.mp hx with hx1 | hx2
      · exact hc hx1.symm
      · exact hacc hx2

/-- C8 counterexample: no choice of token bound and positive overlap makes
the loader's chunks overlapping token-bounded windows: on the two-line input
`a` newline `b` the two chunks `a` and `b` share no token at all. -/
theorem C8_counterexample : ¬ chunkerClaim := by
  rintro ⟨cs, ov, hov, h⟩
  have h2 := (h "a\nb").2
  have hl : load_passages "a\nb" = ["a", "b"] := rfl
  rw [hl, List.chain'_cons] at h2
  obtain ⟨⟨hle, heq⟩, -⟩ := h2
  have h1 : (tokensOf "a").length = 1 := rfl
  rw [h1] at hle
  have hov1 : ov = 1 := by omega
  subst hov1
  rw [h1] at heq
  exact absurd heq (by decide)

/-- C8 (amended): the loader used to populate the vector store is a line
splitter, not an overlapping token-window chunker: `load_passages` yields a
finite list with exactly one chunk per `readlines` line, each chunk a
whitespace-stripped line containing no newline; no token bound is enforced
and consecutive chunks do not overlap. -/
theorem C8_line_chunker (text : String) :
    (load_passages text).length = (readlines text).length
    ∧ ∀ c ∈ load_passages text, '\n' ∉ c.data := by
  refine ⟨by simp [load_passages], ?_⟩
  intro c hc
  simp only [load_passages, List.mem_map] at hc
  obtain ⟨a, ha, rfl⟩ := hc
  obtain ⟨l, hl, hcase⟩ := readlinesAux_shape text.data []
    (List.not_mem_nil '\n') a ha
  exact pyStrip_no_newline a l hl hcase

/-- C8 witness: on a concrete two-line text the loader yields one newline
free chunk per line. -/
theorem C8_witness :
    (load_passages "ab\ncd").length = (readlines "ab\ncd").length
    ∧ '\n' ∉ ("ab" : String).data :=
  ⟨(C8_line_chunker "ab\ncd").1,
   (C8_line_chunker "ab\ncd").2 "ab" (by decide)⟩
